import Mathlib


/-!
Shallow embedding of the bookkeeper payments engine (src/src/model):
`TxType` and `Transaction` from transaction.rs, `Account` with its five
transaction handlers from account.rs, and `Bookkeeper` with its routing
from bookkeeper.rs.

Monetary values: the Rust code uses rust_decimal::Decimal, a 96-bit
sign-magnitude mantissa together with a decimal scale.  Every amount that
reaches balance arithmetic first passes Account::adjust_scale, which
rescales it to exactly 4 fractional digits, and all balances start at
zero, so balances and deposit-record amounts are modelled as integers
counting units of 10^-4, with the 96-bit mantissa bound enforced by the
checked operations.  A raw transaction amount, which may arrive at any
scale, is modelled as a mantissa/scale pair `Dec` of numeric value
m / 10 ^ scale.  checked_add and checked_sub model Decimal::checked_add
and Decimal::checked_sub on scale-4 operands: they fail exactly when the
resulting mantissa magnitude exceeds 2 ^ 96 - 1.  Decimal::rescale, when
it lowers the scale, divides the magnitude by 10 one digit at a time and
finally rounds up when the last dropped digit is at least 5
(rescale_internal); raising the scale preserves the numeric value.
adjust_scale reproduces both.  The HashMaps keyed by tx_id and client_id
are modelled as association lists with first-match lookup and
replace-first insert; iteration order plays no role in the claims.
-/

namespace Bookkeeping

/-- Maximum mantissa magnitude of a 96-bit rust_decimal Decimal. -/
def MAXM : Nat := 2 ^ 96 - 1

/-- Raw decimal input value, of numeric value m / 10 ^ scale. -/
structure Dec where
  m : Int
  scale : Nat
deriving DecidableEq, Repr

/-- Decimal::checked_add on scale-4 operands (units of 10^-4). -/
def checked_add (x y : Int) : Option Int :=
  if (x + y).natAbs ≤ MAXM then some (x + y) else none

/-- Decimal::checked_sub on scale-4 operands (units of 10^-4). -/
def checked_sub (x y : Int) : Option Int :=
  if (x - y).natAbs ≤ MAXM then some (x - y) else none

/-- TxType from transaction.rs. -/
inductive TxType where
  | Deposit
  | Withdrawal
  | Dispute
  | Resolve
  | ChargeBack
deriving DecidableEq, Repr

/-- Transaction from transaction.rs; client_id is a u16 and tx_id a u32 in
the source, but no claim involves the integer widths. -/
structure Transaction where
  type : TxType
  client_id : Nat
  tx_id : Nat
  amount : Option Dec
deriving DecidableEq, Repr

/-- TxError from account.rs, spelling kept from the source. -/
inductive TxError where
  | InvalidClientError
  | MissingAmountError
  | InvalidAmountError
  | InvalidTxIdError
  | InvaidFormatError
  | LockedAccountError
  | InvalidOperatioonError
deriving DecidableEq, Repr

/-- DepositStatus from account.rs. -/
inductive DepositStatus where
  | Normal
  | Disputed
  | Resolved
  | ChargedBack
deriving DecidableEq, Repr

/-- Deposit record from account.rs; amount is a scale-4 Decimal, counted in
units of 10^-4. -/
structure Deposit where
  amount : Int
  status : DepositStatus
deriving DecidableEq, Repr

namespace Table

/-- HashMap::get, first matching key. -/
def lookup {α : Type} : List (Nat × α) → Nat → Option α
  | [], _ => none
  | (k, v) :: t, k2 => if k = k2 then some v else lookup t k2

/-- HashMap::contains_key. -/
def contains {α : Type} (l : List (Nat × α)) (k : Nat) : Bool :=
  (lookup l k).isSome

/-- HashMap::insert, replacing the binding when the key is present. -/
def insert {α : Type} : List (Nat × α) → Nat → α → List (Nat × α)
  | [], k, v => [(k, v)]
  | (k2, v2) :: t, k, v => if k2 = k then (k, v) :: t else (k2, v2) :: insert t k v

end Table

/-- Account from account.rs; balances in units of 10^-4. -/
structure Account where
  client_id : Nat
  available_amount : Int
  held_amount : Int
  total_amount : Int
  locked : Bool
  deposit_history : List (Nat × Deposit)
  withdrawal_history : List (Nat × Transaction)
deriving DecidableEq, Repr

namespace Account

/-- Account::new. -/
def new (client_id : Nat) : Account :=
  { client_id := client_id
    available_amount := 0
    held_amount := 0
    total_amount := 0
    locked := false
    deposit_history := []
    withdrawal_history := [] }

/-- Account::validate_account: a locked account refuses everything. -/
def validate_account (a : Account) : Option TxError :=
  if a.locked then some TxError.LockedAccountError else none

/-- Account::validate_amount: the amount must be present and positive;
amount <= Decimal::ZERO holds exactly when the mantissa is nonpositive. -/
def validate_amount (tx : Transaction) : Except TxError Dec :=
  match tx.amount with
  | some amount =>
    if amount.m ≤ 0 then Except.error TxError.InvalidAmountError
    else Except.ok amount
  | none => Except.error TxError.MissingAmountError

/-- Account::validate_deposit: valid amount and a fresh deposit tx_id. -/
def validate_deposit (a : Account) (tx : Transaction) : Except TxError Dec :=
  match validate_amount tx with
  | Except.error e => Except.error e
  | Except.ok amount =>
    if Table.contains a.deposit_history tx.tx_id then Except.error TxError.InvalidTxIdError
    else Except.ok amount

/-- Account::validate_withdraw: valid amount, not exceeding the available
balance (the raw amount is compared: m / 10^scale > v / 10^4 exactly when
v * 10^scale < m * 10^4), and a fresh withdrawal tx_id. -/
def validate_withdraw (a : Account) (tx : Transaction) : Except TxError Dec :=
  match validate_amount tx with
  | Except.error e => Except.error e
  | Except.ok amount =>
    if a.available_amount * 10 ^ amount.scale < amount.m * 10 ^ 4 then
      Except.error TxError.InvalidAmountError
    else if Table.contains a.withdrawal_history tx.tx_id then
      Except.error TxError.InvalidTxIdError
    else Except.ok amount

/-- Account::validate_dispute: the deposit record must exist and be Normal. -/
def validate_dispute (history : List (Nat × Deposit)) (tx : Transaction) :
    Except TxError Deposit :=
  match Table.lookup history tx.tx_id with
  | some deposit =>
    if deposit.status ≠ DepositStatus.Normal then Except.error TxError.InvalidOperatioonError
    else Except.ok deposit
  | none => Except.error TxError.InvalidTxIdError

/-- Account::validate_resolve: the deposit record must exist and be Disputed. -/
def validate_resolve (history : List (Nat × Deposit)) (tx : Transaction) :
    Except TxError Deposit :=
  match Table.lookup history tx.tx_id with
  | some deposit =>
    if deposit.status ≠ DepositStatus.Disputed then Except.error TxError.InvalidOperatioonError
    else Except.ok deposit
  | none => Except.error TxError.InvalidTxIdError

/-- Account::validate_chargeback: the deposit record must exist and be Disputed. -/
def validate_chargeback (history : List (Nat × Deposit)) (tx : Transaction) :
    Except TxError Deposit :=
  match Table.lookup history tx.tx_id with
  | some deposit =>
    if deposit.status ≠ DepositStatus.Disputed then Except.error TxError.InvalidOperatioonError
    else Except.ok deposit
  | none => Except.error TxError.InvalidTxIdError

/-- Account::adjust_scale: Decimal::rescale to 4 fractional digits.  A scale
of at most 4 is raised by padding the mantissa, preserving the value; a
larger scale is lowered by dropping digits, rounding the magnitude up when
the last dropped digit is 5 or more. -/
def adjust_scale (amt : Dec) : Int :=
  if amt.scale ≤ 4 then amt.m * 10 ^ (4 - amt.scale)
  else
    let k := amt.scale - 4
    let q := amt.m.natAbs / 10 ^ k
    let r := amt.m.natAbs / 10 ^ (k - 1) % 10
    let mag : Nat := if 5 ≤ r then q + 1 else q
    if amt.m < 0 then -(mag : Int) else (mag : Int)

/-- Account::on_deposit.  The state is threaded explicitly: an early
return with an error yields the state as mutated so far, which on every
error path is the original account. -/
def on_deposit (a : Account) (tx : Transaction) : Account × Option TxError :=
  match validate_account a with
  | some e => (a, some e)
  | none =>
    match validate_deposit a tx with
    | Except.error e => (a, some e)
    | Except.ok amt =>
      match checked_add a.available_amount (adjust_scale amt) with
      | none => (a, some TxError.InvalidAmountError)
      | some new_available =>
        match checked_add a.total_amount (adjust_scale amt) with
        | none => (a, some TxError.InvalidAmountError)
        | some new_total =>
          ({ a with
              available_amount := new_available
              total_amount := new_total
              deposit_history :=
                Table.insert a.deposit_history tx.tx_id
                  { amount := adjust_scale amt, status := DepositStatus.Normal } },
            none)

/-- Account::on_withdraw. -/
def on_withdraw (a : Account) (tx : Transaction) : Account × Option TxError :=
  match validate_account a with
  | some e => (a, some e)
  | none =>
    match validate_withdraw a tx with
    | Except.error e => (a, some e)
    | Except.ok amt =>
      match checked_sub a.available_amount (adjust_scale amt) with
      | none => (a, some TxError.InvalidAmountError)
      | some new_available =>
        if 0 ≤ new_available then
          match checked_sub a.total_amount (adjust_scale amt) with
          | none => (a, some TxError.InvalidAmountError)
          | some new_total =>
            if 0 ≤ new_total then
              ({ a with
                  available_amount := new_available
                  total_amount := new_total
                  withdrawal_history := Table.insert a.withdrawal_history tx.tx_id tx },
                none)
            else (a, some TxError.InvalidAmountError)
        else (a, some TxError.InvalidAmountError)

/-- Account::on_dispute.  The record status mutation through the returned
mutable reference becomes a replace-insert of the updated record.  Note the
source checks no sign on the new available balance here. -/
def on_dispute (a : Account) (tx : Transaction) : Account × Option TxError :=
  match validate_account a with
  | some e => (a, some e)
  | none =>
    match validate_dispute a.deposit_history tx with
    | Except.error e => (a, some e)
    | Except.ok deposit =>
      match checked_add a.held_amount deposit.amount with
      | none => (a, some TxError.InvalidAmountError)
      | some new_held =>
        match checked_sub a.available_amount deposit.amount with
        | none => (a, some TxError.InvalidAmountError)
        | some new_available =>
          ({ a with
              held_amount := new_held
              available_amount := new_available
              deposit_history :=
                Table.insert a.deposit_history tx.tx_id
                  { amount := deposit.amount, status := DepositStatus.Disputed } },
            none)

/-- Account::on_resolve. -/
def on_resolve (a : Account) (tx : Transaction) : Account × Option TxError :=
  match validate_account a with
  | some e => (a, some e)
  | none =>
    match validate_resolve a.deposit_history tx with
    | Except.error e => (a, some e)
    | Except.ok deposit =>
      match checked_sub a.held_amount deposit.amount with
      | none => (a, some TxError.InvalidAmountError)
      | some new_held =>
        match checked_add a.available_amount deposit.amount with
        | none => (a, some TxError.InvalidAmountError)
        | some new_available =>
          ({ a with
              held_amount := new_held
              available_amount := new_available
              deposit_history :=
                Table.insert a.deposit_history tx.tx_id
                  { amount := deposit.amount, status := DepositStatus.Resolved } },
            none)

/-- Account::on_chargeback.  Note the source checks no sign on the new
total balance here. -/
def on_chargeback (a : Account) (tx : Transaction) : Account × Option TxError :=
  match validate_account a with
  | some e => (a, some e)
  | none =>
    match validate_chargeback a.deposit_history tx with
    | Except.error e => (a, some e)
    | Except.ok deposit =>
      match checked_sub a.held_amount deposit.amount with
      | none => (a, some TxError.InvalidAmountError)
      | some new_held =>
        match checked_sub a.total_amount deposit.amount with
        | none => (a, some TxError.InvalidAmountError)
        | some new_total =>
          ({ a with
              held_amount := new_held
              total_amount := new_total
              deposit_history :=
                Table.insert a.deposit_history tx.tx_id
                  { amount := deposit.amount, status := DepositStatus.ChargedBack }
              locked := true },
            none)

/-- Account::on_tx: dispatch on the transaction type. -/
def on_tx (a : Account) (tx : Transaction) : Account × Option TxError :=
  match tx.type with
  | TxType.Deposit => on_deposit a tx
  | TxType.Withdrawal => on_withdraw a tx
  | TxType.Dispute => on_dispute a tx
  | TxType.Resolve => on_resolve a tx
  | TxType.ChargeBack => on_chargeback a tx

end Account

/-- Bookkeeper from bookkeeper.rs. -/
structure Bookkeeper where
  accounts : List (Nat × Account)
deriving DecidableEq, Repr

namespace Bookkeeper

/-- Bookkeeper::new. -/
def new : Bookkeeper := { accounts := [] }

/-- Bookkeeper::on_tx: entry(client_id).or_insert(Account::new) followed by
Account::on_tx on the entry, so a missing account is inserted before the
transaction is applied to it, whatever its kind and outcome. -/
def on_tx (b : Bookkeeper) (tx : Transaction) : Bookkeeper × Option TxError :=
  let acct := (Table.lookup b.accounts tx.client_id).getD (Account.new tx.client_id)
  let res := Account.on_tx acct tx
  ({ accounts := Table.insert b.accounts tx.client_id res.1 }, res.2)

end Bookkeeper

/-- Account states reachable from Account::new by Account::on_tx. -/
inductive Reachable : Account → Prop where
  | base (client_id : Nat) : Reachable (Account.new client_id)
  | step (a : Account) (tx : Transaction) : Reachable a → Reachable (Account.on_tx a tx).1

end Bookkeeping

namespace Bookkeeping

namespace Table

theorem lookup_insert_self {α : Type} (l : List (Nat × α)) (k : Nat) (v : α) :
    lookup (insert l k v) k = some v := by
  induction l with
  | nil => simp [insert, lookup]
  | cons p t ih =>
    obtain ⟨k2, v2⟩ := p
    by_cases h : k2 = k
    · subst h; simp [insert, lookup]
    · simp [insert, lookup, h, ih]

theorem lookup_insert_ne {α : Type} (l : List (Nat × α)) (k k2 : Nat) (v : α)
    (h : k ≠ k2) : lookup (insert l k v) k2 = lookup l k2 := by
  induction l with
  | nil => simp [insert, lookup, h]
  | cons p t ih =>
    obtain ⟨k3, v3⟩ := p
    by_cases h3 : k3 = k
    · subst h3; simp [insert, lookup, h]
    · simp [insert, lookup, h3, ih]

theorem mem_insert {α : Type} {l : List (Nat × α)} {k : Nat} {v : α} {p : Nat × α}
    (h : p ∈ insert l k v) : p ∈ l ∨ p = (k, v) := by
  induction l with
  | nil => simpa [insert] using h
  | cons p2 t ih =>
    obtain ⟨k3, v3⟩ := p2
    by_cases h3 : k3 = k
    · subst h3
      simp [insert] at h
      rcases h with h | h
      · right; simp [h]
      · left; simp [h]
    · simp [insert, h3] at h
      rcases h with h | h
      · left; simp [h]
      · rcases ih h with h2 | h2
        · left; simp [h2]
        · right; exact h2

theorem lookup_mem {α : Type} {l : List (Nat × α)} {k : Nat} {v : α}
    (h : lookup l k = some v) : (k, v) ∈ l := by
  induction l with
  | nil => simp [lookup] at h
  | cons p t ih =>
    obtain ⟨k2, v2⟩ := p
    by_cases h2 : k2 = k
    · subst h2
      simp [lookup] at h
      simp [h]
    · simp [lookup, h2] at h
      simp [ih h]

theorem lookup_eq_none_of_contains_eq_false {α : Type} {l : List (Nat × α)} {k : Nat}
    (h : contains l k = false) : lookup l k = none := by
  unfold contains at h
  cases hl : lookup l k with
  | none => rfl
  | some v => rw [hl] at h; simp at h

end Table

theorem checked_add_some {x y z : Int} (h : checked_add x y = some z) :
    z = x + y ∧ z.natAbs ≤ MAXM := by
  unfold checked_add at h
  split at h
  next hle =>
    injection h with h2
    exact ⟨h2.symm, h2 ▸ hle⟩
  next => cases h

theorem checked_sub_some {x y z : Int} (h : checked_sub x y = some z) :
    z = x - y ∧ z.natAbs ≤ MAXM := by
  unfold checked_sub at h
  split at h
  next hle =>
    injection h with h2
    exact ⟨h2.symm, h2 ▸ hle⟩
  next => cases h

theorem checked_add_eq_some {x y : Int} (h : (x + y).natAbs ≤ MAXM) :
    checked_add x y = some (x + y) := by
  unfold checked_add
  rw [if_pos h]

theorem checked_sub_eq_some {x y : Int} (h : (x - y).natAbs ≤ MAXM) :
    checked_sub x y = some (x - y) := by
  unfold checked_sub
  rw [if_pos h]

namespace Account

theorem validate_amount_ok {tx : Transaction} {q : Dec}
    (h : validate_amount tx = Except.ok q) : tx.amount = some q ∧ 0 < q.m := by
  cases htx : tx.amount with
  | none => simp [validate_amount, htx] at h
  | some q2 =>
    simp only [validate_amount, htx] at h
    split at h
    · cases h
    next hpos =>
      injection h with h2
      subst h2
      exact ⟨rfl, by omega⟩

theorem validate_deposit_ok {a : Account} {tx : Transaction} {q : Dec}
    (h : validate_deposit a tx = Except.ok q) :
    validate_amount tx = Except.ok q ∧ Table.contains a.deposit_history tx.tx_id = false := by
  cases hv : validate_amount tx with
  | error e => simp [validate_deposit, hv] at h
  | ok q2 =>
    simp only [validate_deposit, hv] at h
    split at h
    · cases h
    next hcont =>
      injection h with h2
      subst h2
      exact ⟨rfl, by simpa using hcont⟩

theorem validate_withdraw_ok {a : Account} {tx : Transaction} {q : Dec}
    (h : validate_withdraw a tx = Except.ok q) :
    validate_amount tx = Except.ok q ∧
      ¬(a.available_amount * 10 ^ q.scale < q.m * 10 ^ (4:Nat)) ∧
      Table.contains a.withdrawal_history tx.tx_id = false := by
  cases hv : validate_amount tx with
  | error e => simp [validate_withdraw, hv] at h
  | ok q2 =>
    simp only [validate_withdraw, hv] at h
    split at h
    · cases h
    next hlt =>
      split at h
      · cases h
      next hcont =>
        injection h with h2
        subst h2
        exact ⟨rfl, hlt, by simpa using hcont⟩

theorem validate_dispute_ok {history : List (Nat × Deposit)} {tx : Transaction} {d : Deposit}
    (h : validate_dispute history tx = Except.ok d) :
    Table.lookup history tx.tx_id = some d ∧ d.status = DepositStatus.Normal := by
  cases hl : Table.lookup history tx.tx_id with
  | none => simp [validate_dispute, hl] at h
  | some d2 =>
    simp only [validate_dispute, hl] at h
    split at h
    · cases h
    next hst =>
      injection h with h2
      subst h2
      exact ⟨rfl, by simpa using hst⟩

theorem validate_resolve_ok {history : List (Nat × Deposit)} {tx : Transaction} {d : Deposit}
    (h : validate_resolve history tx = Except.ok d) :
    Table.lookup history tx.tx_id = some d ∧ d.status = DepositStatus.Disputed := by
  cases hl : Table.lookup history tx.tx_id with
  | none => simp [validate_resolve, hl] at h
  | some d2 =>
    simp only [validate_resolve, hl] at h
    split at h
    · cases h
    next hst =>
      injection h with h2
      subst h2
      exact ⟨rfl, by simpa using hst⟩

theorem validate_chargeback_ok {history : List (Nat × Deposit)} {tx : Transaction} {d : Deposit}
    (h : validate_chargeback history tx = Except.ok d) :
    Table.lookup history tx.tx_id = some d ∧ d.status = DepositStatus.Disputed := by
  cases hl : Table.lookup history tx.tx_id with
  | none => simp [validate_chargeback, hl] at h
  | some d2 =>
    simp only [validate_chargeback, hl] at h
    split at h
    · cases h
    next hst =>
      injection h with h2
      subst h2
      exact ⟨rfl, by simpa using hst⟩

theorem adjust_scale_nonneg {q : Dec} (h : 0 < q.m) : 0 ≤ adjust_scale q := by
  unfold adjust_scale
  split
  · exact mul_nonneg h.le (pow_nonneg (by norm_num) _)
  · dsimp only
    rw [if_neg (by omega)]
    exact Int.natCast_nonneg _

theorem adjust_scale_le {q : Dec} {v : Int} (hpos : 0 < q.m)
    (h : q.m * 10 ^ (4:Nat) ≤ v * 10 ^ q.scale) : adjust_scale q ≤ v := by
  unfold adjust_scale
  split
  next hs =>
    have h10 : (0:Int) < 10 ^ q.scale := pow_pos (by norm_num) _
    have hpow : (10:Int) ^ (4 - q.scale) * 10 ^ q.scale = 10 ^ (4:Nat) := by
      rw [← pow_add, Nat.sub_add_cancel hs]
    have h2 : q.m * 10 ^ (4 - q.scale) * 10 ^ q.scale ≤ v * 10 ^ q.scale := by
      rw [mul_assoc, hpow]; exact h
    exact le_of_mul_le_mul_right h2 h10
  next hs =>
    dsimp only
    rw [if_neg (by omega)]
    have hk : 1 ≤ q.scale - 4 := by omega
    have hscale : (10:Int) ^ q.scale = 10 ^ (4:Nat) * 10 ^ (q.scale - 4) := by
      rw [← pow_add]
      congr 1
      omega
    have h2 : q.m * 10 ^ (4:Nat) ≤ v * 10 ^ (q.scale - 4) * 10 ^ (4:Nat) := by
      calc q.m * 10 ^ (4:Nat) ≤ v * 10 ^ q.scale := h
        _ = v * 10 ^ (q.scale - 4) * 10 ^ (4:Nat) := by rw [hscale]; ring
    have h3 : q.m ≤ v * 10 ^ (q.scale - 4) := le_of_mul_le_mul_right h2 (by positivity)
    have hv : 0 < v := by
      rcases lt_or_le 0 v with hv | hv
      · exact hv
      · exfalso
        have hp : (0:Int) < 10 ^ (q.scale - 4) := pow_pos (by norm_num) _
        nlinarith
    have hM : (q.m.natAbs : Int) = q.m := Int.natAbs_of_nonneg hpos.le
    have hV : ((v.toNat : Int)) = v := Int.toNat_of_nonneg hv.le
    have hMN : q.m.natAbs ≤ v.toNat * 10 ^ (q.scale - 4) := by
      have h4 : ((q.m.natAbs : Nat) : Int) ≤ ((v.toNat * 10 ^ (q.scale - 4) : Nat) : Int) := by
        rw [hM]
        have hc : ((v.toNat * 10 ^ (q.scale - 4) : Nat) : Int) = v * 10 ^ (q.scale - 4) := by
          rw [Nat.cast_mul, hV, Nat.cast_pow]
          norm_num
        rw [hc]
        exact h3
      exact_mod_cast h4
    have hq0 : q.m.natAbs / 10 ^ (q.scale - 4) ≤ v.toNat := by
      have h5 := Nat.div_le_div_right (c := 10 ^ (q.scale - 4)) hMN
      rwa [Nat.mul_div_cancel _ (by positivity)] at h5
    have hgoal : (if 5 ≤ q.m.natAbs / 10 ^ (q.scale - 4 - 1) % 10 then
        q.m.natAbs / 10 ^ (q.scale - 4) + 1 else q.m.natAbs / 10 ^ (q.scale - 4)) ≤ v.toNat := by
      split
      next hr =>
        rcases Nat.lt_or_ge (q.m.natAbs / 10 ^ (q.scale - 4)) v.toNat with hlt | hge
        · omega
        · exfalso
          have heq : q.m.natAbs / 10 ^ (q.scale - 4) = v.toNat := le_antisymm hq0 hge
          have hge2 : v.toNat * 10 ^ (q.scale - 4) ≤ q.m.natAbs := by
            calc v.toNat * 10 ^ (q.scale - 4)
                = q.m.natAbs / 10 ^ (q.scale - 4) * 10 ^ (q.scale - 4) := by rw [heq]
              _ ≤ q.m.natAbs := Nat.div_mul_le_self _ _
          have heq2 : q.m.natAbs = v.toNat * 10 ^ (q.scale - 4) := le_antisymm hMN hge2
          have hsplit : (10:Nat) ^ (q.scale - 4) = 10 * 10 ^ (q.scale - 4 - 1) := by
            rw [← pow_succ']
            congr 1
            omega
          have hr0 : q.m.natAbs / 10 ^ (q.scale - 4 - 1) % 10 = 0 := by
            rw [heq2, hsplit, ← mul_assoc, Nat.mul_div_cancel _ (by positivity)]
            exact Nat.mul_mod_left _ _
          omega
      next => exact hq0
    rw [← hV]
    exact_mod_cast hgoal

end Account


/-- Contribution of one deposit record to the held balance. -/
def contribution (d : Deposit) : Int :=
  if d.status = DepositStatus.Disputed then d.amount else 0

/-- Sum of the amounts of the currently disputed deposit records. -/
def disputedSum (l : List (Nat × Deposit)) : Int :=
  (l.map fun p => contribution p.2).sum

theorem disputedSum_nil : disputedSum [] = 0 := rfl

theorem disputedSum_cons (p : Nat × Deposit) (t : List (Nat × Deposit)) :
    disputedSum (p :: t) = contribution p.2 + disputedSum t := by
  simp [disputedSum]

theorem contribution_nonneg {d : Deposit} (h : 0 ≤ d.amount) : 0 ≤ contribution d := by
  unfold contribution
  split
  · exact h
  · exact le_refl 0

theorem disputedSum_insert_of_lookup_none {l : List (Nat × Deposit)} {k : Nat} (r : Deposit)
    (h : Table.lookup l k = none) :
    disputedSum (Table.insert l k r) = disputedSum l + contribution r := by
  induction l with
  | nil => simp [Table.insert, disputedSum_cons, disputedSum_nil]
  | cons p t ih =>
    obtain ⟨k2, v2⟩ := p
    by_cases h2 : k2 = k
    · subst h2
      simp [Table.lookup] at h
    · simp only [Table.lookup] at h
      rw [if_neg h2] at h
      simp only [Table.insert]
      rw [if_neg h2]
      rw [disputedSum_cons, disputedSum_cons, ih h]
      dsimp only
      omega

theorem disputedSum_insert_of_lookup_some {l : List (Nat × Deposit)} {k : Nat} {r : Deposit}
    (r2 : Deposit) (h : Table.lookup l k = some r) :
    disputedSum (Table.insert l k r2) = disputedSum l - contribution r + contribution r2 := by
  induction l with
  | nil => simp [Table.lookup] at h
  | cons p t ih =>
    obtain ⟨k2, v2⟩ := p
    by_cases h2 : k2 = k
    · subst h2
      simp [Table.lookup] at h
      subst h
      simp only [Table.insert, if_true]
      rw [disputedSum_cons, disputedSum_cons]
      dsimp only
      omega
    · simp only [Table.lookup] at h
      rw [if_neg h2] at h
      simp only [Table.insert]
      rw [if_neg h2]
      rw [disputedSum_cons, disputedSum_cons, ih h]
      dsimp only
      omega

theorem disputedSum_nonneg {l : List (Nat × Deposit)}
    (h : ∀ p ∈ l, 0 ≤ p.2.amount) : 0 ≤ disputedSum l := by
  induction l with
  | nil => simp [disputedSum_nil]
  | cons p t ih =>
    rw [disputedSum_cons]
    have h1 := contribution_nonneg (h p (by simp))
    have h2 := ih (fun p2 hp2 => h p2 (by simp [hp2]))
    omega

/-- Balance values representable as a 96-bit Decimal mantissa. -/
def InRange (x : Int) : Prop := x.natAbs ≤ MAXM

/-- Invariant of reachable account states: the balance equation, the held
balance as the sum of the disputed record amounts, nonnegative record
amounts, and representable balances. -/
def Inv (a : Account) : Prop :=
  a.total_amount = a.available_amount + a.held_amount ∧
  a.held_amount = disputedSum a.deposit_history ∧
  (∀ p ∈ a.deposit_history, 0 ≤ p.2.amount) ∧
  InRange a.available_amount ∧ InRange a.held_amount ∧ InRange a.total_amount

theorem on_deposit_inv {a : Account} (tx : Transaction) (h : Inv a) :
    Inv (Account.on_deposit a tx).1 := by
  unfold Inv at h ⊢
  unfold Account.on_deposit
  split
  · exact h
  · split
    · exact h
    next amt hval =>
      split
      · exact h
      next nav hadd1 =>
        split
        · exact h
        next ntot hadd2 =>
          obtain ⟨heq, hheld, hamts, hr1, hr2, hr3⟩ := h
          obtain ⟨hvd, hcont⟩ := Account.validate_deposit_ok hval
          obtain ⟨hva, hpos⟩ := Account.validate_amount_ok hvd
          obtain ⟨hz1, hb1⟩ := checked_add_some hadd1
          obtain ⟨hz2, hb2⟩ := checked_add_some hadd2
          have hnone := Table.lookup_eq_none_of_contains_eq_false hcont
          have hsum := disputedSum_insert_of_lookup_none
            (l := a.deposit_history) (k := tx.tx_id)
            { amount := Account.adjust_scale amt, status := DepositStatus.Normal } hnone
          refine ⟨?_, ?_, ?_, ?_, ?_, ?_⟩
          · show ntot = nav + a.held_amount
            omega
          · show a.held_amount = disputedSum (Table.insert a.deposit_history tx.tx_id
              { amount := Account.adjust_scale amt, status := DepositStatus.Normal })
            rw [hsum]
            simp [contribution, hheld]
          · intro p hp
            rcases Table.mem_insert hp with hp2 | hp2
            · exact hamts p hp2
            · subst hp2
              simpa using Account.adjust_scale_nonneg hpos
          · exact hb1
          · exact hr2
          · exact hb2

theorem on_withdraw_inv {a : Account} (tx : Transaction) (h : Inv a) :
    Inv (Account.on_withdraw a tx).1 := by
  unfold Inv at h ⊢
  unfold Account.on_withdraw
  split
  · exact h
  · split
    · exact h
    next amt hval =>
      split
      · exact h
      next nav hsub1 =>
        split
        · split
          · exact h
          next ntot hsub2 =>
            split
            · obtain ⟨heq, hheld, hamts, hr1, hr2, hr3⟩ := h
              obtain ⟨hz1, hb1⟩ := checked_sub_some hsub1
              obtain ⟨hz2, hb2⟩ := checked_sub_some hsub2
              refine ⟨?_, ?_, ?_, ?_, ?_, ?_⟩
              · show ntot = nav + a.held_amount
                omega
              · exact hheld
              · exact hamts
              · exact hb1
              · exact hr2
              · exact hb2
            · exact h
        · exact h

theorem on_dispute_inv {a : Account} (tx : Transaction) (h : Inv a) :
    Inv (Account.on_dispute a tx).1 := by
  unfold Inv at h ⊢
  unfold Account.on_dispute
  split
  · exact h
  · split
    · exact h
    next deposit hval =>
      split
      · exact h
      next nheld hadd =>
        split
        · exact h
        next nav hsub =>
          obtain ⟨heq, hheld, hamts, hr1, hr2, hr3⟩ := h
          obtain ⟨hlook, hstat⟩ := Account.validate_dispute_ok hval
          obtain ⟨hz1, hb1⟩ := checked_add_some hadd
          obtain ⟨hz2, hb2⟩ := checked_sub_some hsub
          have hsum := disputedSum_insert_of_lookup_some
            (l := a.deposit_history) (k := tx.tx_id)
            { amount := deposit.amount, status := DepositStatus.Disputed } hlook
          have hc0 : contribution deposit = 0 := by simp [contribution, hstat]
          refine ⟨?_, ?_, ?_, ?_, ?_, ?_⟩
          · show a.total_amount = nav + nheld
            omega
          · show nheld = disputedSum (Table.insert a.deposit_history tx.tx_id
              { amount := deposit.amount, status := DepositStatus.Disputed })
            rw [hsum, hc0]
            simp only [contribution]
            simp
            omega
          · intro p hp
            rcases Table.mem_insert hp with hp2 | hp2
            · exact hamts p hp2
            · subst hp2
              simpa using hamts _ (Table.lookup_mem hlook)
          · exact hb2
          · exact hb1
          · exact hr3

theorem on_resolve_inv {a : Account} (tx : Transaction) (h : Inv a) :
    Inv (Account.on_resolve a tx).1 := by
  unfold Inv at h ⊢
  unfold Account.on_resolve
  split
  · exact h
  · split
    · exact h
    next deposit hval =>
      split
      · exact h
      next nheld hsub =>
        split
        · exact h
        next nav hadd =>
          obtain ⟨heq, hheld, hamts, hr1, hr2, hr3⟩ := h
          obtain ⟨hlook, hstat⟩ := Account.validate_resolve_ok hval
          obtain ⟨hz1, hb1⟩ := checked_sub_some hsub
          obtain ⟨hz2, hb2⟩ := checked_add_some hadd
          have hsum := disputedSum_insert_of_lookup_some
            (l := a.deposit_history) (k := tx.tx_id)
            { amount := deposit.amount, status := DepositStatus.Resolved } hlook
          have hc0 : contribution deposit = deposit.amount := by simp [contribution, hstat]
          refine ⟨?_, ?_, ?_, ?_, ?_, ?_⟩
          · show a.total_amount = nav + nheld
            omega
          · show nheld = disputedSum (Table.insert a.deposit_history tx.tx_id
              { amount := deposit.amount, status := DepositStatus.Resolved })
            rw [hsum, hc0]
            simp only [contribution]
            simp
            omega
          · intro p hp
            rcases Table.mem_insert hp with hp2 | hp2
            · exact hamts p hp2
            · subst hp2
              simpa using hamts _ (Table.lookup_mem hlook)
          · exact hb2
          · exact hb1
          · exact hr3

theorem on_chargeback_inv {a : Account} (tx : Transaction) (h : Inv a) :
    Inv (Account.on_chargeback a tx).1 := by
  unfold Inv at h ⊢
  unfold Account.on_chargeback
  split
  · exact h
  · split
    · exact h
    next deposit hval =>
      split
      · exact h
      next nheld hsub1 =>
        split
        · exact h
        next ntot hsub2 =>
          obtain ⟨heq, hheld, hamts, hr1, hr2, hr3⟩ := h
          obtain ⟨hlook, hstat⟩ := Account.validate_chargeback_ok hval
          obtain ⟨hz1, hb1⟩ := checked_sub_some hsub1
          obtain ⟨hz2, hb2⟩ := checked_sub_some hsub2
          have hsum := disputedSum_insert_of_lookup_some
            (l := a.deposit_history) (k := tx.tx_id)
            { amount := deposit.amount, status := DepositStatus.ChargedBack } hlook
          have hc0 : contribution deposit = deposit.amount := by simp [contribution, hstat]
          refine ⟨?_, ?_, ?_, ?_, ?_, ?_⟩
          · show ntot = a.available_amount + nheld
            omega
          · show nheld = disputedSum (Table.insert a.deposit_history tx.tx_id
              { amount := deposit.amount, status := DepositStatus.ChargedBack })
            rw [hsum, hc0]
            simp only [contribution]
            simp
            omega
          · intro p hp
            rcases Table.mem_insert hp with hp2 | hp2
            · exact hamts p hp2
            · subst hp2
              simpa using hamts _ (Table.lookup_mem hlook)
          · exact hr1
          · exact hb1
          · exact hb2

theorem on_tx_inv {a : Account} (tx : Transaction) (h : Inv a) :
    Inv (Account.on_tx a tx).1 := by
  unfold Account.on_tx
  cases htx : tx.type
  · exact on_deposit_inv tx h
  · exact on_withdraw_inv tx h
  · exact on_dispute_inv tx h
  · exact on_resolve_inv tx h
  · exact on_chargeback_inv tx h

theorem reachable_inv {a : Account} (h : Reachable a) : Inv a := by
  induction h with
  | base c =>
    refine ⟨by norm_num [Account.new], rfl, by simp [Account.new], ?_, ?_, ?_⟩ <;>
      simp [InRange, Account.new]
  | step a2 tx h2 ih => exact on_tx_inv tx ih

theorem on_deposit_eq {a : Account} (tx : Transaction)
    (h : a.total_amount = a.available_amount + a.held_amount) :
    (Account.on_deposit a tx).1.total_amount =
      (Account.on_deposit a tx).1.available_amount + (Account.on_deposit a tx).1.held_amount := by
  unfold Account.on_deposit
  split
  · exact h
  · split
    · exact h
    next amt hval =>
      split
      · exact h
      next nav hadd1 =>
        split
        · exact h
        next ntot hadd2 =>
          obtain ⟨hz1, _⟩ := checked_add_some hadd1
          obtain ⟨hz2, _⟩ := checked_add_some hadd2
          show ntot = nav + a.held_amount
          omega

theorem on_withdraw_eq {a : Account} (tx : Transaction)
    (h : a.total_amount = a.available_amount + a.held_amount) :
    (Account.on_withdraw a tx).1.total_amount =
      (Account.on_withdraw a tx).1.available_amount + (Account.on_withdraw a tx).1.held_amount := by
  unfold Account.on_withdraw
  split
  · exact h
  · split
    · exact h
    next amt hval =>
      split
      · exact h
      next nav hsub1 =>
        split
        · split
          · exact h
          next ntot hsub2 =>
            split
            · obtain ⟨hz1, _⟩ := checked_sub_some hsub1
              obtain ⟨hz2, _⟩ := checked_sub_some hsub2
              show ntot = nav + a.held_amount
              omega
            · exact h
        · exact h

theorem on_dispute_eq {a : Account} (tx : Transaction)
    (h : a.total_amount = a.available_amount + a.held_amount) :
    (Account.on_dispute a tx).1.total_amount =
      (Account.on_dispute a tx).1.available_amount + (Account.on_dispute a tx).1.held_amount := by
  unfold Account.on_dispute
  split
  · exact h
  · split
    · exact h
    next deposit hval =>
      split
      · exact h
      next nheld hadd =>
        split
        · exact h
        next nav hsub =>
          obtain ⟨hz1, _⟩ := checked_add_some hadd
          obtain ⟨hz2, _⟩ := checked_sub_some hsub
          show a.total_amount = nav + nheld
          omega

theorem on_resolve_eq {a : Account} (tx : Transaction)
    (h : a.total_amount = a.available_amount + a.held_amount) :
    (Account.on_resolve a tx).1.total_amount =
      (Account.on_resolve a tx).1.available_amount + (Account.on_resolve a tx).1.held_amount := by
  unfold Account.on_resolve
  split
  · exact h
  · split
    · exact h
    next deposit hval =>
      split
      · exact h
      next nheld hsub =>
        split
        · exact h
        next nav hadd =>
          obtain ⟨hz1, _⟩ := checked_sub_some hsub
          obtain ⟨hz2, _⟩ := checked_add_some hadd
          show a.total_amount = nav + nheld
          omega

theorem on_chargeback_eq {a : Account} (tx : Transaction)
    (h : a.total_amount = a.available_amount + a.held_amount) :
    (Account.on_chargeback a tx).1.total_amount =
      (Account.on_chargeback a tx).1.available_amount + (Account.on_chargeback a tx).1.held_amount := by
  unfold Account.on_chargeback
  split
  · exact h
  · split
    · exact h
    next deposit hval =>
      split
      · exact h
      next nheld hsub1 =>
        split
        · exact h
        next ntot hsub2 =>
          obtain ⟨hz1, _⟩ := checked_sub_some hsub1
          obtain ⟨hz2, _⟩ := checked_sub_some hsub2
          show ntot = a.available_amount + nheld
          omega

theorem on_tx_eq {a : Account} (tx : Transaction)
    (h : a.total_amount = a.available_amount + a.held_amount) :
    (Account.on_tx a tx).1.total_amount =
      (Account.on_tx a tx).1.available_amount + (Account.on_tx a tx).1.held_amount := by
  unfold Account.on_tx
  cases htx : tx.type
  · exact on_deposit_eq tx h
  · exact on_withdraw_eq tx h
  · exact on_dispute_eq tx h
  · exact on_resolve_eq tx h
  · exact on_chargeback_eq tx h

theorem on_deposit_err {a : Account} {tx : Transaction} {a2 : Account} {e : TxError}
    (h : Account.on_deposit a tx = (a2, some e)) : a2 = a := by
  unfold Account.on_deposit at h
  repeat' split at h
  all_goals
    injection h with h1 h2
    first
    | exact h1.symm
    | exact Option.noConfusion h2

theorem on_withdraw_err {a : Account} {tx : Transaction} {a2 : Account} {e : TxError}
    (h : Account.on_withdraw a tx = (a2, some e)) : a2 = a := by
  unfold Account.on_withdraw at h
  repeat' split at h
  all_goals
    injection h with h1 h2
    first
    | exact h1.symm
    | exact Option.noConfusion h2

theorem on_dispute_err {a : Account} {tx : Transaction} {a2 : Account} {e : TxError}
    (h : Account.on_dispute a tx = (a2, some e)) : a2 = a := by
  unfold Account.on_dispute at h
  repeat' split at h
  all_goals
    injection h with h1 h2
    first
    | exact h1.symm
    | exact Option.noConfusion h2

theorem on_resolve_err {a : Account} {tx : Transaction} {a2 : Account} {e : TxError}
    (h : Account.on_resolve a tx = (a2, some e)) : a2 = a := by
  unfold Account.on_resolve at h
  repeat' split at h
  all_goals
    injection h with h1 h2
    first
    | exact h1.symm
    | exact Option.noConfusion h2

theorem on_chargeback_err {a : Account} {tx : Transaction} {a2 : Account} {e : TxError}
    (h : Account.on_chargeback a tx = (a2, some e)) : a2 = a := by
  unfold Account.on_chargeback at h
  repeat' split at h
  all_goals
    injection h with h1 h2
    first
    | exact h1.symm
    | exact Option.noConfusion h2

theorem locked_on_tx {a : Account} (tx : Transaction) (h : a.locked = true) :
    Account.on_tx a tx = (a, some TxError.LockedAccountError) := by
  unfold Account.on_tx
  cases htx : tx.type <;>
    simp [Account.on_deposit, Account.on_withdraw, Account.on_dispute, Account.on_resolve,
      Account.on_chargeback, Account.validate_account, h]

theorem on_chargeback_success_locked {a : Account} {tx : Transaction}
    (h : (Account.on_chargeback a tx).2 = none) :
    (Account.on_chargeback a tx).1.locked = true := by
  rcases hE : Account.on_chargeback a tx with ⟨a2, err⟩
  rw [hE] at h
  dsimp only at h ⊢
  unfold Account.on_chargeback at hE
  repeat' split at hE
  all_goals injection hE with h1 h2
  all_goals subst h1
  all_goals subst h2
  all_goals first
    | exact Option.noConfusion h
    | rfl

/-- Sample transactions and account states used by concrete witnesses and
counterexamples: deposit 2.0000 as tx 1, withdraw 2.0000 as tx 2, dispute
tx 1, then charge back tx 1. -/
def txDeposit1 : Transaction :=
  { type := TxType.Deposit, client_id := 1, tx_id := 1, amount := some { m := 20000, scale := 4 } }

def txWithdraw2 : Transaction :=
  { type := TxType.Withdrawal, client_id := 1, tx_id := 2, amount := some { m := 20000, scale := 4 } }

def txDispute1 : Transaction :=
  { type := TxType.Dispute, client_id := 1, tx_id := 1, amount := none }

def txChargeback1 : Transaction :=
  { type := TxType.ChargeBack, client_id := 1, tx_id := 1, amount := none }

def acct1 : Account := (Account.on_tx (Account.new 1) txDeposit1).1

def acctW : Account := (Account.on_tx acct1 txWithdraw2).1

def acctD : Account := (Account.on_tx acctW txDispute1).1

def acctC : Account := (Account.on_tx acctD txChargeback1).1

theorem reachable_acct1 : Reachable acct1 :=
  Reachable.step (Account.new 1) txDeposit1 (Reachable.base 1)

theorem reachable_acctW : Reachable acctW :=
  Reachable.step acct1 txWithdraw2 reachable_acct1

theorem reachable_acctD : Reachable acctD :=
  Reachable.step acctW txDispute1 reachable_acctW

theorem reachable_acctC : Reachable acctC :=
  Reachable.step acctD txChargeback1 reachable_acctD

/-- Claim C1.  The claim says a non-deposit addressed to an unseen client
fails with InvalidClientError and creates no account.  The code instead
inserts a fresh zero-balance account through entry().or_insert before
dispatching, and the dispute then fails inside the fresh account with
InvalidTxIdError; InvalidClientError is never produced.  This theorem
evaluates Bookkeeper::on_tx at the failing input. -/
theorem claim_C1 :
    Bookkeeper.on_tx Bookkeeper.new txDispute1 =
      ({ accounts := [(1, Account.new 1)] }, some TxError.InvalidTxIdError) ∧
    Table.contains (Bookkeeper.on_tx Bookkeeper.new txDispute1).1.accounts 1 = true ∧
    (Bookkeeper.on_tx Bookkeeper.new txDispute1).2 ≠ some TxError.InvalidClientError := by
  refine ⟨?_, ?_, ?_⟩ <;> decide

/-- Claim C2, counterexample.  Depositing 2.0000, withdrawing it all, then
disputing the deposit drives available to -2.0000; the following chargeback
drives total to -2.0000.  Both states are reachable, refuting
available >= 0 and total >= 0. -/
theorem claim_C2_counterexample :
    Reachable acctD ∧ acctD.available_amount < 0 ∧
    Reachable acctC ∧ acctC.total_amount < 0 :=
  ⟨reachable_acctD, by decide, reachable_acctC, by decide⟩

/-- Claim C2, amended: in every account state reachable through
Account::on_tx from Account::new, held_amount is nonnegative; available
and total can go negative (dispute of an already withdrawn deposit, then
chargeback), so only the held bound survives. -/
theorem claim_C2 : ∀ a : Account, Reachable a → 0 ≤ a.held_amount := by
  intro a h
  obtain ⟨_, hheld, hamts, _⟩ := reachable_inv h
  rw [hheld]
  exact disputedSum_nonneg hamts

theorem claim_C2_witness : 0 ≤ acctD.held_amount :=
  claim_C2 acctD reachable_acctD

/-- Claim C3: total == available + held holds in every reachable account
state, and every branch of Account::on_tx, successful or failed, preserves
the equation from any state satisfying it. -/
theorem claim_C3 :
    (∀ a : Account, Reachable a → a.total_amount = a.available_amount + a.held_amount) ∧
    (∀ (a : Account) (tx : Transaction),
      a.total_amount = a.available_amount + a.held_amount →
      (Account.on_tx a tx).1.total_amount =
        (Account.on_tx a tx).1.available_amount + (Account.on_tx a tx).1.held_amount) := by
  constructor
  · intro a h
    exact (reachable_inv h).1
  · intro a tx h
    exact on_tx_eq tx h

theorem claim_C3_witness :
    (acctC.total_amount = acctC.available_amount + acctC.held_amount) ∧
    ((Account.on_tx acct1 txWithdraw2).1.total_amount =
      (Account.on_tx acct1 txWithdraw2).1.available_amount +
        (Account.on_tx acct1 txWithdraw2).1.held_amount) :=
  ⟨claim_C3.1 acctC reachable_acctC, claim_C3.2 acct1 txWithdraw2 (by decide)⟩

/-- Claim C4: whenever Account::on_tx returns an error, the resulting
account state is exactly the state before the call; no failure path of any
of the five branches mutates anything. -/
theorem claim_C4 : ∀ (a : Account) (tx : Transaction) (a2 : Account) (e : TxError),
    Account.on_tx a tx = (a2, some e) → a2 = a := by
  intro a tx a2 e h
  unfold Account.on_tx at h
  split at h
  · exact on_deposit_err h
  · exact on_withdraw_err h
  · exact on_dispute_err h
  · exact on_resolve_err h
  · exact on_chargeback_err h

theorem claim_C4_witness :
    (Account.on_tx acct1 txDeposit1).1 = acct1 :=
  claim_C4 acct1 txDeposit1 (Account.on_tx acct1 txDeposit1).1 TxError.InvalidTxIdError
    (by decide)

/-- Claim C5: a successful ChargeBack leaves the account locked, a locked
account rejects every transaction with LockedAccountError and stays
unchanged, and no operation ever resets locked to false. -/
theorem claim_C5 : ∀ (a : Account) (tx : Transaction),
    (tx.type = TxType.ChargeBack → (Account.on_tx a tx).2 = none →
      (Account.on_tx a tx).1.locked = true) ∧
    (a.locked = true → Account.on_tx a tx = (a, some TxError.LockedAccountError)) ∧
    (a.locked = true → (Account.on_tx a tx).1.locked = true) := by
  intro a tx
  refine ⟨?_, ?_, ?_⟩
  · intro ht h
    unfold Account.on_tx at h ⊢
    rw [ht] at h ⊢
    exact on_chargeback_success_locked h
  · intro h
    exact locked_on_tx tx h
  · intro h
    rw [locked_on_tx tx h]
    exact h

theorem claim_C5_witness :
    ((Account.on_tx acctD txChargeback1).1.locked = true) ∧
    (Account.on_tx acctC txDeposit1 = (acctC, some TxError.LockedAccountError)) :=
  ⟨(claim_C5 acctD txChargeback1).1 rfl (by decide),
    (claim_C5 acctC txDeposit1).2.1 (by decide)⟩

theorem record_step {a : Account} {tx : Transaction} {id : Nat} {r r2 : Deposit}
    (h1 : Table.lookup a.deposit_history id = some r)
    (h2 : Table.lookup (Account.on_tx a tx).1.deposit_history id = some r2) :
    r2.status = r.status ∨
      (r.status = DepositStatus.Normal ∧ r2.status = DepositStatus.Disputed) ∨
      (r.status = DepositStatus.Disputed ∧ r2.status = DepositStatus.Resolved) ∨
      (r.status = DepositStatus.Disputed ∧ r2.status = DepositStatus.ChargedBack) := by
  rcases hE : Account.on_tx a tx with ⟨a2, err⟩
  rw [hE] at h2
  dsimp only at h2
  unfold Account.on_tx at hE
  split at hE
  -- Deposit
  · unfold Account.on_deposit at hE
    split at hE
    · injection hE with hA hB
      subst hA
      left
      rw [h1] at h2
      injection h2 with h3
      rw [h3]
    · split at hE
      · injection hE with hA hB
        subst hA
        left
        rw [h1] at h2
        injection h2 with h3
        rw [h3]
      next amt hval =>
        split at hE
        · injection hE with hA hB
          subst hA
          left
          rw [h1] at h2
          injection h2 with h3
          rw [h3]
        next nav hadd1 =>
          split at hE
          · injection hE with hA hB
            subst hA
            left
            rw [h1] at h2
            injection h2 with h3
            rw [h3]
          next ntot hadd2 =>
            injection hE with hA hB
            subst hA
            dsimp only at h2
            obtain ⟨hvd, hcont⟩ := Account.validate_deposit_ok hval
            have hnone := Table.lookup_eq_none_of_contains_eq_false hcont
            by_cases hid : tx.tx_id = id
            · subst hid
              rw [hnone] at h1
              cases h1
            · rw [Table.lookup_insert_ne _ _ _ _ hid] at h2
              left
              rw [h1] at h2
              injection h2 with h3
              rw [h3]
  -- Withdrawal
  · have ha : a2 = a ∨ a2.deposit_history = a.deposit_history := by
      unfold Account.on_withdraw at hE
      repeat' split at hE
      all_goals injection hE with hA hB
      all_goals subst hA
      all_goals simp
    rcases ha with ha | ha
    · subst ha
      left
      rw [h1] at h2
      injection h2 with h3
      rw [h3]
    · rw [ha, h1] at h2
      left
      injection h2 with h3
      rw [h3]
  -- Dispute
  · unfold Account.on_dispute at hE
    split at hE
    · injection hE with hA hB
      subst hA
      left
      rw [h1] at h2
      injection h2 with h3
      rw [h3]
    · split at hE
      · injection hE with hA hB
        subst hA
        left
        rw [h1] at h2
        injection h2 with h3
        rw [h3]
      next deposit hval =>
        split at hE
        · injection hE with hA hB
          subst hA
          left
          rw [h1] at h2
          injection h2 with h3
          rw [h3]
        next nheld hadd =>
          split at hE
          · injection hE with hA hB
            subst hA
            left
            rw [h1] at h2
            injection h2 with h3
            rw [h3]
          next nav hsub =>
            injection hE with hA hB
            subst hA
            dsimp only at h2
            obtain ⟨hlook, hstat⟩ := Account.validate_dispute_ok hval
            by_cases hid : tx.tx_id = id
            · subst hid
              rw [hlook] at h1
              injection h1 with h4
              rw [Table.lookup_insert_self] at h2
              injection h2 with h3
              right; left
              constructor
              · rw [← h4, hstat]
              · rw [← h3]
            · rw [Table.lookup_insert_ne _ _ _ _ hid] at h2
              left
              rw [h1] at h2
              injection h2 with h3
              rw [h3]
  -- Resolve
  · unfold Account.on_resolve at hE
    split at hE
    · injection hE with hA hB
      subst hA
      left
      rw [h1] at h2
      injection h2 with h3
      rw [h3]
    · split at hE
      · injection hE with hA hB
        subst hA
        left
        rw [h1] at h2
        injection h2 with h3
        rw [h3]
      next deposit hval =>
        split at hE
        · injection hE with hA hB
          subst hA
          left
          rw [h1] at h2
          injection h2 with h3
          rw [h3]
        next nheld hsub =>
          split at hE
          · injection hE with hA hB
            subst hA
            left
            rw [h1] at h2
            injection h2 with h3
            rw [h3]
          next nav hadd =>
            injection hE with hA hB
            subst hA
            dsimp only at h2
            obtain ⟨hlook, hstat⟩ := Account.validate_resolve_ok hval
            by_cases hid : tx.tx_id = id
            · subst hid
              rw [hlook] at h1
              injection h1 with h4
              rw [Table.lookup_insert_self] at h2
              injection h2 with h3
              right; right; left
              constructor
              · rw [← h4, hstat]
              · rw [← h3]
            · rw [Table.lookup_insert_ne _ _ _ _ hid] at h2
              left
              rw [h1] at h2
              injection h2 with h3
              rw [h3]
  -- ChargeBack
  · unfold Account.on_chargeback at hE
    split at hE
    · injection hE with hA hB
      subst hA
      left
      rw [h1] at h2
      injection h2 with h3
      rw [h3]
    · split at hE
      · injection hE with hA hB
        subst hA
        left
        rw [h1] at h2
        injection h2 with h3
        rw [h3]
      next deposit hval =>
        split at hE
        · injection hE with hA hB
          subst hA
          left
          rw [h1] at h2
          injection h2 with h3
          rw [h3]
        next nheld hsub1 =>
          split at hE
          · injection hE with hA hB
            subst hA
            left
            rw [h1] at h2
            injection h2 with h3
            rw [h3]
          next ntot hsub2 =>
            injection hE with hA hB
            subst hA
            dsimp only at h2
            obtain ⟨hlook, hstat⟩ := Account.validate_chargeback_ok hval
            by_cases hid : tx.tx_id = id
            · subst hid
              rw [hlook] at h1
              injection h1 with h4
              rw [Table.lookup_insert_self] at h2
              injection h2 with h3
              right; right; right
              constructor
              · rw [← h4, hstat]
              · rw [← h3]
            · rw [Table.lookup_insert_ne _ _ _ _ hid] at h2
              left
              rw [h1] at h2
              injection h2 with h3
              rw [h3]

/-- Claim C6: deposit record statuses only move along the edges
Normal to Disputed (successful Dispute), Disputed to Resolved (successful
Resolve) and Disputed to ChargedBack (successful ChargeBack); on an
unlocked account a Dispute against a non-Normal record or a Resolve or
ChargeBack against a non-Disputed record fails with
InvalidOperatioonError, and any of the three against an absent tx_id
fails with InvalidTxIdError.  (On a locked account the lock check fires
first, per the dispatch order of Account::on_tx.) -/
theorem claim_C6 : ∀ (a : Account) (tx : Transaction),
    (∀ (id : Nat) (r r2 : Deposit),
      Table.lookup a.deposit_history id = some r →
      Table.lookup (Account.on_tx a tx).1.deposit_history id = some r2 →
      r2.status = r.status ∨
        (r.status = DepositStatus.Normal ∧ r2.status = DepositStatus.Disputed) ∨
        (r.status = DepositStatus.Disputed ∧ r2.status = DepositStatus.Resolved) ∨
        (r.status = DepositStatus.Disputed ∧ r2.status = DepositStatus.ChargedBack)) ∧
    (∀ r : Deposit, a.locked = false → tx.type = TxType.Dispute →
      Table.lookup a.deposit_history tx.tx_id = some r →
      r.status ≠ DepositStatus.Normal →
      (Account.on_tx a tx).2 = some TxError.InvalidOperatioonError) ∧
    (∀ r : Deposit, a.locked = false → tx.type = TxType.Resolve →
      Table.lookup a.deposit_history tx.tx_id = some r →
      r.status ≠ DepositStatus.Disputed →
      (Account.on_tx a tx).2 = some TxError.InvalidOperatioonError) ∧
    (∀ r : Deposit, a.locked = false → tx.type = TxType.ChargeBack →
      Table.lookup a.deposit_history tx.tx_id = some r →
      r.status ≠ DepositStatus.Disputed →
      (Account.on_tx a tx).2 = some TxError.InvalidOperatioonError) ∧
    (a.locked = false →
      (tx.type = TxType.Dispute ∨ tx.type = TxType.Resolve ∨ tx.type = TxType.ChargeBack) →
      Table.lookup a.deposit_history tx.tx_id = none →
      (Account.on_tx a tx).2 = some TxError.InvalidTxIdError) := by
  intro a tx
  refine ⟨?_, ?_, ?_, ?_, ?_⟩
  · intro id r r2 h1 h2
    exact record_step h1 h2
  · intro r hlocked htype hlook hst
    simp [Account.on_tx, htype, Account.on_dispute, Account.validate_account, hlocked,
      Account.validate_dispute, hlook, hst]
  · intro r hlocked htype hlook hst
    simp [Account.on_tx, htype, Account.on_resolve, Account.validate_account, hlocked,
      Account.validate_resolve, hlook, hst]
  · intro r hlocked htype hlook hst
    simp [Account.on_tx, htype, Account.on_chargeback, Account.validate_account, hlocked,
      Account.validate_chargeback, hlook, hst]
  · intro hlocked htype hlook
    rcases htype with htype | htype | htype
    · simp [Account.on_tx, htype, Account.on_dispute, Account.validate_account, hlocked,
        Account.validate_dispute, hlook]
    · simp [Account.on_tx, htype, Account.on_resolve, Account.validate_account, hlocked,
        Account.validate_resolve, hlook]
    · simp [Account.on_tx, htype, Account.on_chargeback, Account.validate_account, hlocked,
        Account.validate_chargeback, hlook]

theorem claim_C6_witness :
    ((Account.on_tx acctD txDispute1).2 = some TxError.InvalidOperatioonError) ∧
    ((Account.on_tx (Account.new 1) txDispute1).2 = some TxError.InvalidTxIdError) :=
  ⟨(claim_C6 acctD txDispute1).2.1 { amount := 20000, status := DepositStatus.Disputed }
      (by decide) rfl (by decide) (by decide),
    (claim_C6 (Account.new 1) txDispute1).2.2.2.2 (by decide) (Or.inl rfl) (by decide)⟩

theorem validate_amount_eq_ok {tx : Transaction} {q : Dec}
    (hamt : tx.amount = some q) (hpos : 0 < q.m) :
    Account.validate_amount tx = Except.ok q := by
  simp only [Account.validate_amount, hamt]
  rw [if_neg (by omega)]

theorem on_deposit_success {a : Account} {tx : Transaction} {q : Dec} {nav ntot : Int}
    (hlocked : a.locked = false) (hamt : tx.amount = some q) (hpos : 0 < q.m)
    (hcont : Table.contains a.deposit_history tx.tx_id = false)
    (hadd1 : checked_add a.available_amount (Account.adjust_scale q) = some nav)
    (hadd2 : checked_add a.total_amount (Account.adjust_scale q) = some ntot) :
    Account.on_deposit a tx =
      ({ a with
          available_amount := nav
          total_amount := ntot
          deposit_history := Table.insert a.deposit_history tx.tx_id
            { amount := Account.adjust_scale q, status := DepositStatus.Normal } }, none) := by
  have hva := validate_amount_eq_ok hamt hpos
  have hvd : Account.validate_deposit a tx = Except.ok q := by
    simp [Account.validate_deposit, hva, hcont]
  unfold Account.on_deposit
  simp [Account.validate_account, hlocked, hvd, hadd1, hadd2]

/-- Claim C7: on an unlocked account a Deposit fails MissingAmountError
without an amount, InvalidAmountError on a nonpositive amount,
InvalidTxIdError on a tx_id already in deposit_history (account unchanged),
InvalidAmountError with no mutation when a checked addition overflows, and
otherwise adds the amount, normalized to the 4-digit scale, to both
available and total and records DepositRecord(amount, Normal) under the
tx_id. -/
theorem claim_C7 : ∀ (a : Account) (tx : Transaction),
    a.locked = false → tx.type = TxType.Deposit →
    (tx.amount = none → Account.on_tx a tx = (a, some TxError.MissingAmountError)) ∧
    (∀ q : Dec, tx.amount = some q → q.m ≤ 0 →
      Account.on_tx a tx = (a, some TxError.InvalidAmountError)) ∧
    (∀ q : Dec, tx.amount = some q → 0 < q.m →
      Table.contains a.deposit_history tx.tx_id = true →
      Account.on_tx a tx = (a, some TxError.InvalidTxIdError)) ∧
    (∀ q : Dec, tx.amount = some q → 0 < q.m →
      Table.contains a.deposit_history tx.tx_id = false →
      (checked_add a.available_amount (Account.adjust_scale q) = none ∨
        checked_add a.total_amount (Account.adjust_scale q) = none) →
      Account.on_tx a tx = (a, some TxError.InvalidAmountError)) ∧
    (∀ q : Dec, tx.amount = some q → 0 < q.m →
      Table.contains a.deposit_history tx.tx_id = false →
      checked_add a.available_amount (Account.adjust_scale q) ≠ none →
      checked_add a.total_amount (Account.adjust_scale q) ≠ none →
      Account.on_tx a tx =
        ({ a with
            available_amount := a.available_amount + Account.adjust_scale q
            total_amount := a.total_amount + Account.adjust_scale q
            deposit_history := Table.insert a.deposit_history tx.tx_id
              { amount := Account.adjust_scale q, status := DepositStatus.Normal } }, none)) := by
  intro a tx hlocked htype
  refine ⟨?_, ?_, ?_, ?_, ?_⟩
  · intro hamt
    simp only [Account.on_tx, htype]
    simp [Account.on_deposit, Account.validate_account, hlocked, Account.validate_deposit,
      Account.validate_amount, hamt]
  · intro q hamt hle
    have hva : Account.validate_amount tx = Except.error TxError.InvalidAmountError := by
      simp only [Account.validate_amount, hamt]
      rw [if_pos hle]
    simp only [Account.on_tx, htype]
    simp [Account.on_deposit, Account.validate_account, hlocked, Account.validate_deposit, hva]
  · intro q hamt hpos hcont
    have hva := validate_amount_eq_ok hamt hpos
    have hvd : Account.validate_deposit a tx = Except.error TxError.InvalidTxIdError := by
      simp [Account.validate_deposit, hva, hcont]
    simp only [Account.on_tx, htype]
    simp [Account.on_deposit, Account.validate_account, hlocked, hvd]
  · intro q hamt hpos hcont hor
    have hva := validate_amount_eq_ok hamt hpos
    have hvd : Account.validate_deposit a tx = Except.ok q := by
      simp [Account.validate_deposit, hva, hcont]
    simp only [Account.on_tx, htype]
    rcases hor with hor | hor
    · simp [Account.on_deposit, Account.validate_account, hlocked, hvd, hor]
    · cases h1 : checked_add a.available_amount (Account.adjust_scale q) with
      | none => simp [Account.on_deposit, Account.validate_account, hlocked, hvd, h1]
      | some nav =>
        simp [Account.on_deposit, Account.validate_account, hlocked, hvd, h1, hor]
  · intro q hamt hpos hcont hne1 hne2
    cases h1 : checked_add a.available_amount (Account.adjust_scale q) with
    | none => exact absurd h1 hne1
    | some nav =>
      cases h2 : checked_add a.total_amount (Account.adjust_scale q) with
      | none => exact absurd h2 hne2
      | some ntot =>
        simp only [Account.on_tx, htype]
        rw [on_deposit_success hlocked hamt hpos hcont h1 h2]
        obtain ⟨hz1, _⟩ := checked_add_some h1
        obtain ⟨hz2, _⟩ := checked_add_some h2
        rw [hz1, hz2]

theorem claim_C7_witness :
    ((Account.on_tx (Account.new 1) txDeposit1).2 = none) ∧
    (Account.on_tx acct1 txDeposit1 = (acct1, some TxError.InvalidTxIdError)) := by
  constructor
  · have h := (claim_C7 (Account.new 1) txDeposit1 rfl rfl).2.2.2.2
      { m := 20000, scale := 4 } rfl (by decide) (by decide) (by decide) (by decide)
    rw [h]
  · exact (claim_C7 acct1 txDeposit1 (by decide) rfl).2.2.1
      { m := 20000, scale := 4 } rfl (by decide) (by decide)

theorem on_withdraw_success {a : Account} {tx : Transaction} {q : Dec}
    (hinv : Inv a) (hlocked : a.locked = false) (hamt : tx.amount = some q) (hpos : 0 < q.m)
    (hle : ¬(a.available_amount * 10 ^ q.scale < q.m * 10 ^ (4:Nat)))
    (hcont : Table.contains a.withdrawal_history tx.tx_id = false) :
    Account.on_withdraw a tx =
      ({ a with
          available_amount := a.available_amount - Account.adjust_scale q
          total_amount := a.total_amount - Account.adjust_scale q
          withdrawal_history := Table.insert a.withdrawal_history tx.tx_id tx }, none) ∧
      0 ≤ a.available_amount - Account.adjust_scale q ∧
      0 ≤ a.total_amount - Account.adjust_scale q := by
  obtain ⟨heq, hheld, hamts, hr1, hr2, hr3⟩ := hinv
  have hheld_nonneg : 0 ≤ a.held_amount := by
    rw [hheld]
    exact disputedSum_nonneg hamts
  have hva := validate_amount_eq_ok hamt hpos
  have hvw : Account.validate_withdraw a tx = Except.ok q := by
    simp only [Account.validate_withdraw, hva]
    rw [if_neg hle]
    simp [hcont]
  have hle2 : q.m * 10 ^ (4:Nat) ≤ a.available_amount * 10 ^ q.scale := not_lt.mp hle
  have hadj_le : Account.adjust_scale q ≤ a.available_amount := Account.adjust_scale_le hpos hle2
  have hadj_nonneg : 0 ≤ Account.adjust_scale q := Account.adjust_scale_nonneg hpos
  have hav_le_tot : a.available_amount ≤ a.total_amount := by omega
  have hb1 : (a.available_amount - Account.adjust_scale q).natAbs ≤ MAXM := by
    unfold InRange at hr1
    omega
  have hb2 : (a.total_amount - Account.adjust_scale q).natAbs ≤ MAXM := by
    unfold InRange at hr3
    omega
  have hcs1 : checked_sub a.available_amount (Account.adjust_scale q) =
      some (a.available_amount - Account.adjust_scale q) := checked_sub_eq_some hb1
  have hcs2 : checked_sub a.total_amount (Account.adjust_scale q) =
      some (a.total_amount - Account.adjust_scale q) := checked_sub_eq_some hb2
  have hge1 : 0 ≤ a.available_amount - Account.adjust_scale q := by omega
  have hge2 : 0 ≤ a.total_amount - Account.adjust_scale q := by omega
  refine ⟨?_, hge1, hge2⟩
  unfold Account.on_withdraw
  simp [Account.validate_account, hlocked, hvw, hcs1, hcs2, hge1, hge2]

/-- Withdrawal of 3.0000 as tx 3: more than the 2.0000 available after the
first deposit (Scenario B of the spec). -/
def txWithdraw3 : Transaction :=
  { type := TxType.Withdrawal, client_id := 1, tx_id := 3, amount := some { m := 30000, scale := 4 } }

/-- Withdrawal of 0.5000 as tx 2, applied twice to exhibit the duplicate
withdrawal tx_id rejection. -/
def txWithdrawHalf : Transaction :=
  { type := TxType.Withdrawal, client_id := 1, tx_id := 2, amount := some { m := 5000, scale := 4 } }

def acctH : Account := (Account.on_tx acct1 txWithdrawHalf).1

/-- Claim C8, counterexample.  After deposit 2.0000 (tx 1) and withdrawal
0.5000 (tx 2), replaying the tx 2 withdrawal satisfies every condition of
the claim for the commit branch, amount present, positive and not above
available on an unlocked account, yet it fails with InvalidTxIdError
because withdrawal tx_ids are deduplicated, and commits nothing. -/
theorem claim_C8_counterexample :
    acctH.locked = false ∧
    txWithdrawHalf.amount = some { m := 5000, scale := 4 } ∧
    (0:Int) < 5000 ∧
    ¬(acctH.available_amount * 10 ^ (4:Nat) < 5000 * 10 ^ (4:Nat)) ∧
    Account.on_tx acctH txWithdrawHalf = (acctH, some TxError.InvalidTxIdError) := by
  refine ⟨?_, ?_, ?_, ?_, ?_⟩ <;> decide

/-- Claim C8, amended: on an unlocked reachable account a Withdrawal fails
MissingAmountError when the amount is absent, InvalidAmountError when the
amount is nonpositive or exceeds available, InvalidTxIdError when its
tx_id is already in withdrawal_history, each leaving the account
unchanged; otherwise it subtracts the normalized amount from both
available and total via checked subtraction, yielding nonnegative new
balances, and records the transaction. -/
theorem claim_C8 : ∀ (a : Account) (tx : Transaction),
    Reachable a → a.locked = false → tx.type = TxType.Withdrawal →
    (tx.amount = none → Account.on_tx a tx = (a, some TxError.MissingAmountError)) ∧
    (∀ q : Dec, tx.amount = some q → q.m ≤ 0 →
      Account.on_tx a tx = (a, some TxError.InvalidAmountError)) ∧
    (∀ q : Dec, tx.amount = some q → 0 < q.m →
      a.available_amount * 10 ^ q.scale < q.m * 10 ^ (4:Nat) →
      Account.on_tx a tx = (a, some TxError.InvalidAmountError)) ∧
    (∀ q : Dec, tx.amount = some q → 0 < q.m →
      ¬(a.available_amount * 10 ^ q.scale < q.m * 10 ^ (4:Nat)) →
      Table.contains a.withdrawal_history tx.tx_id = true →
      Account.on_tx a tx = (a, some TxError.InvalidTxIdError)) ∧
    (∀ q : Dec, tx.amount = some q → 0 < q.m →
      ¬(a.available_amount * 10 ^ q.scale < q.m * 10 ^ (4:Nat)) →
      Table.contains a.withdrawal_history tx.tx_id = false →
      Account.on_tx a tx =
        ({ a with
            available_amount := a.available_amount - Account.adjust_scale q
            total_amount := a.total_amount - Account.adjust_scale q
            withdrawal_history := Table.insert a.withdrawal_history tx.tx_id tx }, none) ∧
        0 ≤ a.available_amount - Account.adjust_scale q ∧
        0 ≤ a.total_amount - Account.adjust_scale q) := by
  intro a tx hreach hlocked htype
  refine ⟨?_, ?_, ?_, ?_, ?_⟩
  · intro hamt
    simp only [Account.on_tx, htype]
    simp [Account.on_withdraw, Account.validate_account, hlocked, Account.validate_withdraw,
      Account.validate_amount, hamt]
  · intro q hamt hle
    have hva : Account.validate_amount tx = Except.error TxError.InvalidAmountError := by
      simp only [Account.validate_amount, hamt]
      rw [if_pos hle]
    simp only [Account.on_tx, htype]
    simp [Account.on_withdraw, Account.validate_account, hlocked, Account.validate_withdraw, hva]
  · intro q hamt hpos hlt
    have hva := validate_amount_eq_ok hamt hpos
    have hvw : Account.validate_withdraw a tx = Except.error TxError.InvalidAmountError := by
      simp only [Account.validate_withdraw, hva]
      rw [if_pos hlt]
    simp only [Account.on_tx, htype]
    simp [Account.on_withdraw, Account.validate_account, hlocked, hvw]
  · intro q hamt hpos hle hcont
    have hva := validate_amount_eq_ok hamt hpos
    have hvw : Account.validate_withdraw a tx = Except.error TxError.InvalidTxIdError := by
      simp only [Account.validate_withdraw, hva]
      rw [if_neg hle]
      simp [hcont]
    simp only [Account.on_tx, htype]
    simp [Account.on_withdraw, Account.validate_account, hlocked, hvw]
  · intro q hamt hpos hle hcont
    simp only [Account.on_tx, htype]
    exact on_withdraw_success (reachable_inv hreach) hlocked hamt hpos hle hcont

theorem claim_C8_witness :
    ((Account.on_tx acct1 txWithdraw2).2 = none) ∧
    (Account.on_tx acct1 txWithdraw3 = (acct1, some TxError.InvalidAmountError)) := by
  constructor
  · have h := (claim_C8 acct1 txWithdraw2 reachable_acct1 (by decide) rfl).2.2.2.2
      { m := 20000, scale := 4 } rfl (by decide) (by decide) (by decide)
    rw [h.1]
  · exact (claim_C8 acct1 txWithdraw3 reachable_acct1 (by decide) rfl).2.2.1
      { m := 30000, scale := 4 } rfl (by decide) (by decide)

/-- Withdrawal of 0.5000 reusing the deposit tx_id 1: deposit and
withdrawal histories are separate keyspaces. -/
def txWithdrawSameId : Transaction :=
  { type := TxType.Withdrawal, client_id := 1, tx_id := 1, amount := some { m := 5000, scale := 4 } }

/-- Deposit of 1.0000 reusing the withdrawal tx_id 2. -/
def txDeposit2 : Transaction :=
  { type := TxType.Deposit, client_id := 1, tx_id := 2, amount := some { m := 10000, scale := 4 } }

/-- Claim C9: every successful Withdrawal is recorded in
withdrawal_history under its tx_id; replaying a used withdrawal tx_id on
an unlocked account with a valid, covered amount fails with
InvalidTxIdError and changes nothing; and because the two histories are
separate keyspaces, a Withdrawal may reuse a Deposit tx_id and a Deposit
may reuse a Withdrawal tx_id without error. -/
theorem claim_C9 :
    (∀ (a : Account) (tx : Transaction), tx.type = TxType.Withdrawal →
      (Account.on_tx a tx).2 = none →
      Table.lookup (Account.on_tx a tx).1.withdrawal_history tx.tx_id = some tx) ∧
    (∀ (a : Account) (tx : Transaction) (q : Dec), a.locked = false →
      tx.type = TxType.Withdrawal → tx.amount = some q → 0 < q.m →
      ¬(a.available_amount * 10 ^ q.scale < q.m * 10 ^ (4:Nat)) →
      Table.contains a.withdrawal_history tx.tx_id = true →
      Account.on_tx a tx = (a, some TxError.InvalidTxIdError)) ∧
    (∀ (a : Account) (tx : Transaction) (q : Dec), Reachable a → a.locked = false →
      tx.type = TxType.Withdrawal → tx.amount = some q → 0 < q.m →
      ¬(a.available_amount * 10 ^ q.scale < q.m * 10 ^ (4:Nat)) →
      Table.contains a.withdrawal_history tx.tx_id = false →
      Table.contains a.deposit_history tx.tx_id = true →
      (Account.on_tx a tx).2 = none) ∧
    (∀ (a : Account) (tx : Transaction) (q : Dec), a.locked = false →
      tx.type = TxType.Deposit → tx.amount = some q → 0 < q.m →
      Table.contains a.deposit_history tx.tx_id = false →
      Table.contains a.withdrawal_history tx.tx_id = true →
      checked_add a.available_amount (Account.adjust_scale q) ≠ none →
      checked_add a.total_amount (Account.adjust_scale q) ≠ none →
      (Account.on_tx a tx).2 = none) := by
  refine ⟨?_, ?_, ?_, ?_⟩
  · intro a tx htype h
    rcases hE : Account.on_tx a tx with ⟨a2, err⟩
    rw [hE] at h
    dsimp only at h
    subst h
    simp only [Account.on_tx, htype] at hE
    unfold Account.on_withdraw at hE
    repeat' split at hE
    all_goals injection hE with hA hB
    all_goals first
      | exact Option.noConfusion hB
      | (subst hA; exact Table.lookup_insert_self _ _ _)
  · intro a tx q hlocked htype hamt hpos hle hcont
    have hva := validate_amount_eq_ok hamt hpos
    have hvw : Account.validate_withdraw a tx = Except.error TxError.InvalidTxIdError := by
      simp only [Account.validate_withdraw, hva]
      rw [if_neg hle]
      simp [hcont]
    simp only [Account.on_tx, htype]
    simp [Account.on_withdraw, Account.validate_account, hlocked, hvw]
  · intro a tx q hreach hlocked htype hamt hpos hle hcontW hcontD
    simp only [Account.on_tx, htype]
    have h := on_withdraw_success (reachable_inv hreach) hlocked hamt hpos hle hcontW
    rw [h.1]
  · intro a tx q hlocked htype hamt hpos hcontD hcontW hne1 hne2
    cases h1 : checked_add a.available_amount (Account.adjust_scale q) with
    | none => exact absurd h1 hne1
    | some nav =>
      cases h2 : checked_add a.total_amount (Account.adjust_scale q) with
      | none => exact absurd h2 hne2
      | some ntot =>
        simp only [Account.on_tx, htype]
        rw [on_deposit_success hlocked hamt hpos hcontD h1 h2]

theorem claim_C9_witness :
    (Table.lookup (Account.on_tx acct1 txWithdraw2).1.withdrawal_history 2 = some txWithdraw2) ∧
    ((Account.on_tx acct1 txWithdrawSameId).2 = none) ∧
    ((Account.on_tx acctW txDeposit2).2 = none) :=
  ⟨claim_C9.1 acct1 txWithdraw2 rfl (by decide),
    claim_C9.2.2.1 acct1 txWithdrawSameId { m := 5000, scale := 4 } reachable_acct1
      (by decide) rfl rfl (by decide) (by decide) (by decide) (by decide),
    claim_C9.2.2.2 acctW txDeposit2 { m := 10000, scale := 4 }
      (by decide) rfl rfl (by decide) (by decide) (by decide) (by decide) (by decide)⟩

/-- Deposit of 0.00004 as tx 1: positive but below the 4-digit resolution. -/
def txDepositTiny : Transaction :=
  { type := TxType.Deposit, client_id := 1, tx_id := 1, amount := some { m := 4, scale := 5 } }

/-- Withdrawal of 0.50004 as tx 2: a 5-digit amount covered by the 2.0000
available after the first deposit. -/
def txWithdrawFine : Transaction :=
  { type := TxType.Withdrawal, client_id := 1, tx_id := 2, amount := some { m := 50004, scale := 5 } }

/-- Claim C10: Deposit and Withdrawal amounts carrying more than 4
fractional digits are never rejected for their precision: the checks run
on the raw amount (positivity; for withdrawals also the funds and
duplicate checks) and the amount is then rescaled to 4 digits by rounding
and committed.  Any deposit with a fresh tx_id and no overflow succeeds,
and any covered withdrawal with a fresh tx_id on a reachable unlocked
account succeeds, whatever the scale of the raw amount.  Concretely,
depositing 0.00004 on a fresh account succeeds, changes available and
total by exactly 0, and records a DepositRecord of amount 0; withdrawing
0.50004 after a 2.0000 deposit succeeds and subtracts exactly 0.5000. -/
theorem claim_C10 :
    (∀ (a : Account) (tx : Transaction) (q : Dec), a.locked = false →
      tx.type = TxType.Deposit → tx.amount = some q → 0 < q.m →
      Table.contains a.deposit_history tx.tx_id = false →
      checked_add a.available_amount (Account.adjust_scale q) ≠ none →
      checked_add a.total_amount (Account.adjust_scale q) ≠ none →
      (Account.on_tx a tx).2 = none) ∧
    (∀ (a : Account) (tx : Transaction) (q : Dec), Reachable a → a.locked = false →
      tx.type = TxType.Withdrawal → tx.amount = some q → 0 < q.m →
      ¬(a.available_amount * 10 ^ q.scale < q.m * 10 ^ (4:Nat)) →
      Table.contains a.withdrawal_history tx.tx_id = false →
      (Account.on_tx a tx).2 = none) ∧
    (Account.adjust_scale { m := 4, scale := 5 } = 0 ∧
      Account.on_tx (Account.new 1) txDepositTiny =
        ({ Account.new 1 with
            deposit_history := [(1, { amount := 0, status := DepositStatus.Normal })] },
          none)) ∧
    (Account.adjust_scale { m := 50004, scale := 5 } = 5000 ∧
      Account.on_tx acct1 txWithdrawFine =
        ({ acct1 with
            available_amount := 15000
            total_amount := 15000
            withdrawal_history := [(2, txWithdrawFine)] }, none)) := by
  refine ⟨?_, ?_, ?_, ?_⟩
  · intro a tx q hlocked htype hamt hpos hcont hne1 hne2
    cases h1 : checked_add a.available_amount (Account.adjust_scale q) with
    | none => exact absurd h1 hne1
    | some nav =>
      cases h2 : checked_add a.total_amount (Account.adjust_scale q) with
      | none => exact absurd h2 hne2
      | some ntot =>
        simp only [Account.on_tx, htype]
        rw [on_deposit_success hlocked hamt hpos hcont h1 h2]
  · intro a tx q hreach hlocked htype hamt hpos hle hcont
    simp only [Account.on_tx, htype]
    have h := on_withdraw_success (reachable_inv hreach) hlocked hamt hpos hle hcont
    rw [h.1]
  · exact ⟨by decide, by decide⟩
  · exact ⟨by decide, by decide⟩

theorem claim_C10_witness :
    ((Account.on_tx (Account.new 1) txDepositTiny).2 = none) ∧
    ((Account.on_tx acct1 txWithdrawFine).2 = none) :=
  ⟨claim_C10.1 (Account.new 1) txDepositTiny { m := 4, scale := 5 } rfl rfl rfl
      (by decide) (by decide) (by decide) (by decide),
    claim_C10.2.1 acct1 txWithdrawFine { m := 50004, scale := 5 } reachable_acct1
      (by decide) rfl rfl (by decide) (by decide) (by decide)⟩

end Bookkeeping